import Mathlib

/-
Verification of the distribution core of the rush repository
(src/mainserver/core.py, class CoreServer) against its specification.

The embedding below translates CoreServer's event handlers into pure Lean
functions over an explicit server state.  Python byte strings become lists
of naturals, Python dicts become association lists (insertion ordered,
unique keys), and Python exceptions become an Except monad with an error
enumeration.  The Handler entity and the HandlerInitializer state machine
live in mainserver/entities.py, which is not part of the sources; those
two are modelled from the specification and are marked as such.
-/

namespace Rush

/-- Errors raised by the Python code paths we model: TypeError (for
int + bytes and None-vs-int comparisons), KeyError (dict lookup misses),
ValueError (min of an empty sequence) and IndexError (bytes indexing). -/
inductive PyError where
  | typeError
  | keyError
  | valueError
  | indexError
deriving DecidableEq

/-- Python byte strings, one natural (0..255) per byte. -/
abbrev Bytes := List Nat

/-- Dict lookup: d[k] as an Option (semantics of `k in d` / `d[k]`). -/
def dlookup {β : Type} : List (Nat × β) → Nat → Option β
  | [], _ => none
  | (k, v) :: rest, key => if k = key then some v else dlookup rest key

/-- Dict write d[k] = v: replaces the value in place when the key is
present (Python dicts keep insertion order), appends otherwise. -/
def dinsert {β : Type} : List (Nat × β) → Nat → β → List (Nat × β)
  | [], key, val => [(key, val)]
  | (k, v) :: rest, key, val =>
    if k = key then (k, val) :: rest else (k, v) :: dinsert rest key val

/-- Dict removal d.pop(k) ignoring the returned value; identity when the
key is absent (callers guard with `k in d` where Python would raise). -/
def dpop {β : Type} : List (Nat × β) → Nat → List (Nat × β)
  | [], _ => []
  | (k, v) :: rest, key => if k = key then rest else (k, v) :: dpop rest key

/-- Dict value update in place, modelling mutation of the object stored
under a key. -/
def dupdate {β : Type} : List (Nat × β) → Nat → (β → β) → List (Nat × β)
  | [], _, _ => []
  | (k, v) :: rest, key, f =>
    if k = key then (k, f v) :: rest else (k, v) :: dupdate rest key f

/-- int.from_bytes(b, 'little'): little-endian interpretation. -/
def leBytes : Bytes → Nat
  | [] => 0
  | b :: rest => b + 256 * leBytes rest

/-- Modelled from the spec: the Handler entity of mainserver/entities.py
(not under src/).  One worker connection, with its identity (the
connection id), its current load (0-255, initially unset) and its
assigned filter token (unset until the handshake completes).  set_load
overwrites the load, set_filter sets the token. -/
structure Handler where
  hid : Nat
  load : Option Nat
  filt : Option Bytes
deriving DecidableEq

/-- Modelled from the spec: the stages of the server-side handshake
state machine (HandlerInitializer of mainserver/entities.py, not under
src/): awaiting the 4 magic bytes, awaiting the 1-byte ack, awaiting the
filter token. -/
inductive InitStage where
  | awaitMagic
  | awaitAck
  | awaitFilt
deriving DecidableEq

/-- Modelled from the spec: the fixed 4 magic bytes 0x69 0x04 0x02 0x00
(INITIAL_BYTES_SEQUENCE of mainserver/entities.py, not under src/). -/
def magicBytes : Bytes := [105, 4, 2, 0]

/-- Outcome of one HandlerInitializer.next_step call as observed by
CoreServer.response: True (continue, internal stage advanced), False
(handshake failure) or the received filter token (bytes). -/
inductive InitResult where
  | cont (next : InitStage)
  | fail
  | tok (t : Bytes)

/-- Modelled from the spec: HandlerInitializer.next_step (not under
src/).  Checks the magic bytes, then the ack byte, then returns the
(nonempty) filter token; any malformed step fails.  The bytes the server
sends back (reversed magic, its name) are not tracked, no claim is about
them. -/
def next_step : InitStage → Bytes → InitResult
  | .awaitMagic, b => if b = magicBytes then .cont .awaitAck else .fail
  | .awaitAck, b => if b = [1] then .cont .awaitFilt else .fail
  | .awaitFilt, b => if b = [] then .fail else .tok b

/-- One per-connection reassembly cell, the list
[msg_len_received, left_to_receive, received] stored in
CoreServer.requests. -/
structure Cell where
  lenDone : Bool
  left : Nat
  buf : Bytes
deriving DecidableEq

/-- State of CoreServer: the dicts requests, responses, waiting_for_init
and handlers, the virtual_groups dict (filter token to group members),
plus the list of sockets closed so far (recording conn.close calls).
Group entries hold Handler values kept in sync with the handlers dict,
modelling that in Python both places reference a single Handler
object. -/
structure ServerState where
  requests : List (Nat × Cell)
  responses : List (Nat × Unit)
  waiting_for_init : List (Nat × InitStage)
  handlers : List (Nat × Handler)
  virtual_groups : List (Bytes × List Handler)
  closed : List Nat
deriving DecidableEq

/-- Fresh CoreServer state: every map empty. -/
def initState : ServerState := ⟨[], [], [], [], [], []⟩

/-- Modelled from the spec: Handler.set_load overwrites the load (never
accumulates).  The group entry of the same connection is updated too,
because in Python it is the same object. -/
def set_load (s : ServerState) (conn v : Nat) : ServerState :=
  { s with
    handlers := dupdate s.handlers conn (fun h => { h with load := some v }),
    virtual_groups := s.virtual_groups.map
      (fun g => (g.1, g.2.map (fun h => if h.hid = conn then { h with load := some v } else h))) }

/-- Insertion into virtual_groups at admission: create the group if the
filter key is new, append to it otherwise (core.py lines 223-226). -/
def vgAppend : List (Bytes × List Handler) → Bytes → Handler → List (Bytes × List Handler)
  | [], t, h => [(t, [h])]
  | (f, hs) :: rest, t, h =>
    if f = t then (f, hs ++ [h]) :: rest else (f, hs) :: vgAppend rest t h

/-- CoreServer.response (core.py lines 208-236).  cb is the response
callback; invocations are both executed (so an exception propagates, as
in Python) and recorded in the returned list as (handler id, body)
pairs. -/
def response (cb : Nat → Bytes → Except PyError Unit) (s : ServerState)
    (conn : Nat) (body : Bytes) :
    Except PyError (ServerState × List (Nat × Bytes)) :=
  match dlookup s.handlers conn with
  | none => .error .keyError
  | some ent =>
    match dlookup s.waiting_for_init conn with
    | some stage =>
      match next_step stage body with
      | .cont next => .ok ({ s with waiting_for_init := dinsert s.waiting_for_init conn next }, [])
      | .fail => .ok ({ s with closed := s.closed ++ [conn] }, [])
      | .tok t =>
        let ent' := { ent with filt := some t }
        .ok ({ s with
               waiting_for_init := dpop s.waiting_for_init conn,
               handlers := dinsert s.handlers conn ent',
               virtual_groups := vgAppend s.virtual_groups t ent' }, [])
    | none =>
      match body with
      | [] => .error .indexError
      | b0 :: rest =>
        if b0 = 1 then
          match rest with
          | [] => .error .indexError
          | b1 :: _ => .ok (set_load s conn b1, [])
        else
          match cb ent.hid rest with
          | .error e => .error e
          | .ok _ => .ok (s, [(ent.hid, rest)])

/-- CoreServer.requests_handler (core.py lines 154-192).  chunk is what
conn.recv returned for this RECEIVE event (at most the requested number
of bytes, so in the length-collecting branch the Python test
left_to_receive - len(received) <= 0 is exactly left <= len(chunk)).
The branch taken when a split length prefix completes models core.py
line 179, which evaluates int.from_bytes(request_cell[2], 'little')
+ received, an int plus bytes, raising TypeError. -/
def requests_handler (cb : Nat → Bytes → Except PyError Unit) (s : ServerState)
    (conn : Nat) (chunk : Bytes) :
    Except PyError (ServerState × List (Nat × Bytes)) :=
  match dlookup s.requests conn with
  | none =>
    if chunk.length = 4 then
      .ok ({ s with requests := dinsert s.requests conn ⟨true, leBytes chunk, []⟩ }, [])
    else
      .ok ({ s with requests := dinsert s.requests conn ⟨false, 4 - chunk.length, chunk⟩ }, [])
  | some cell =>
    if cell.lenDone = false then
      if cell.left ≤ chunk.length then
        .error .typeError
      else
        .ok ({ s with requests :=
               dinsert s.requests conn ⟨false, cell.left - chunk.length, cell.buf ++ chunk⟩ }, [])
    else
      let buf := cell.buf ++ chunk
      if cell.left ≤ chunk.length then
        let c1 : Cell := ⟨true, cell.left - chunk.length, buf⟩
        let s1 := { s with requests := dinsert s.requests conn c1 }
        match response cb s1 conn buf with
        | .error e => .error e
        | .ok (s2, calls) => .ok ({ s2 with requests := dpop s2.requests conn }, calls)
      else
        .ok ({ s with requests :=
               dinsert s.requests conn ⟨true, cell.left - chunk.length, buf⟩ }, [])

/-- CoreServer.conn_handler (core.py lines 131-139): create the Handler
entity (load and filter unset) and the handshake session. -/
def conn_handler (s : ServerState) (conn : Nat) : ServerState :=
  { s with
    handlers := dinsert s.handlers conn ⟨conn, none, none⟩,
    waiting_for_init := dinsert s.waiting_for_init conn .awaitMagic }

/-- CoreServer.disconn_handler (core.py lines 141-152): guarded pops
from waiting_for_init, requests and responses, close the socket, then
an unguarded self.handlers.pop(conn), which raises KeyError when the
connection is not in the handlers dict.  virtual_groups is not
touched. -/
def disconn_handler (s : ServerState) (conn : Nat) : Except PyError ServerState :=
  let s1 := { s with
    waiting_for_init := dpop s.waiting_for_init conn,
    requests := dpop s.requests conn,
    responses := dpop s.responses conn,
    closed := s.closed ++ [conn] }
  match dlookup s1.handlers conn with
  | none => .error .keyError
  | some _ => .ok { s1 with handlers := dpop s1.handlers conn }

/-- Events delivered by the epoll loop to the registered handlers. -/
inductive Event where
  | connect (conn : Nat)
  | receive (conn : Nat) (chunk : Bytes)
  | disconnect (conn : Nat)

/-- Dispatch of one epoll event to the registered CoreServer handler. -/
def applyEvent (cb : Nat → Bytes → Except PyError Unit) (s : ServerState) :
    Event → Except PyError (ServerState × List (Nat × Bytes))
  | .connect c => .ok (conn_handler s c, [])
  | .receive c chunk => requests_handler cb s c chunk
  | .disconnect c =>
    match disconn_handler s c with
    | .error e => .error e
    | .ok s1 => .ok (s1, [])

/-- Sequential processing of a list of epoll events, accumulating the
response-callback invocations. -/
def runEvents (cb : Nat → Bytes → Except PyError Unit) (s : ServerState) :
    List Event → Except PyError (ServerState × List (Nat × Bytes))
  | [] => .ok (s, [])
  | e :: rest =>
    match applyEvent cb s e with
    | .error err => .error err
    | .ok (s1, calls1) =>
      match runEvents cb s1 rest with
      | .error err => .error err
      | .ok (s2, calls2) => .ok (s2, calls1 ++ calls2)

/-- Python comparison of two loads inside min's key comparison: ints
compare normally, any comparison touching None raises TypeError. -/
def ltLoad : Option Nat → Option Nat → Except PyError Bool
  | some a, some b => .ok (decide (a < b))
  | _, _ => .error .typeError

/-- Load value of a handler whose load is set. -/
def lv (h : Handler) : Nat := h.load.getD 0

/-- CPython min scan: keep the first encountered element whose key is
strictly smaller than the current best's key. -/
def pyMinGo (best : Handler) : List Handler → Except PyError Handler
  | [] => .ok best
  | h :: t =>
    match ltLoad h.load best.load with
    | .error e => .error e
    | .ok lt => pyMinGo (if lt then h else best) t

/-- Python min(handlers, key=lambda h: h.load): ValueError on an empty
sequence, otherwise a scan from the first element. -/
def pyMin : List Handler → Except PyError Handler
  | [] => .error .valueError
  | h :: t => pyMinGo h t

/-- Loop body of CoreServer.send_update over the virtual_groups items:
for each group whose filter accepts the request, send to the min-load
member (the ids of the receiving handlers are collected; the payload is
always the same serialized request).  The filter's match operation
(Filter.call, external to src/) is the accepts parameter. -/
def send_updateGo {α : Type} (accepts : Bytes → α → Bool) (req : α) :
    List (Bytes × List Handler) → Except PyError (List Nat)
  | [] => .ok []
  | (f, hs) :: rest =>
    if accepts f req then
      match pyMin hs with
      | .error e => .error e
      | .ok m =>
        match send_updateGo accepts req rest with
        | .error e => .error e
        | .ok tail => .ok (m.hid :: tail)
    else send_updateGo accepts req rest

/-- CoreServer.send_update (core.py lines 240-250). -/
def send_update {α : Type} (accepts : Bytes → α → Bool) (s : ServerState) (req : α) :
    Except PyError (List Nat) :=
  send_updateGo accepts req s.virtual_groups

/-- Response callback that always succeeds (used in concrete traces). -/
def cbOk : Nat → Bytes → Except PyError Unit := fun _ _ => .ok ()

/-- Response callback that raises (used for the callback-failure trace). -/
def cbBoom : Nat → Bytes → Except PyError Unit := fun _ _ => .error .valueError

/-- Event trace admitting connection 1: connect, then the three
handshake messages (magic, ack, filter token [7,7,7]), each sent as a
length-framed message whose 4-byte prefix arrives in a single read. -/
def admitTrace : List Event :=
  [.connect 1,
   .receive 1 [4, 0, 0, 0], .receive 1 [105, 4, 2, 0],
   .receive 1 [1, 0, 0, 0], .receive 1 [1],
   .receive 1 [3, 0, 0, 0], .receive 1 [7, 7, 7]]

/-- Server state after admitTrace: connection 1 admitted, member of the
virtual group keyed by its filter token, load still unset. -/
def sAdmitted : ServerState :=
  ⟨[], [], [], [(1, ⟨1, none, some [7, 7, 7]⟩)],
   [([7, 7, 7], [⟨1, none, some [7, 7, 7]⟩])], []⟩

/-- Server state after admitTrace followed by the disconnect of
connection 1: gone from the handlers dict, socket closed, but still a
member of its virtual group. -/
def sAfterDisc : ServerState :=
  ⟨[], [], [], [], [([7, 7, 7], [⟨1, none, some [7, 7, 7]⟩])], [1]⟩

/-- Claim C1: splitting the 4-byte little-endian length prefix across
partial reads is claimed to still yield the reassembled frame.  In the
code it does not: on the read that completes a split prefix, core.py
line 179 adds an int to a bytes object, so the engine raises TypeError
instead of producing a frame.  Concretely, a fresh connection whose
prefix arrives as two 2-byte reads crashes the RECEIVE handler. -/
theorem C1_split_len_raises :
    runEvents cbOk initState
      [Event.connect 1, Event.receive 1 [5, 0], Event.receive 1 [0, 0]] =
      .error .typeError := rfl

/-- Claim C2: the 4 magic bytes of handshake step 1 are claimed to be
consumed by the handshake state machine.  In the code requests_handler
runs frame reassembly on every connection, admitted or not: the magic
bytes 0x69 0x04 0x02 0x00 of a fresh connection are consumed as a
little-endian length prefix of value 132201, the handshake session is
left untouched at its first stage, and the engine now awaits 132201
payload bytes. -/
theorem C2_magic_taken_as_length :
    runEvents cbOk initState [Event.connect 1, Event.receive 1 [105, 4, 2, 0]] =
      .ok (⟨[(1, ⟨true, 132201, []⟩)], [], [(1, .awaitMagic)],
            [(1, ⟨1, none, none⟩)], [], []⟩, []) := rfl

/-- Claim C3: disconnecting is claimed to remove the connection from
every map that references it, including its VirtualGroup entry, and to
be idempotent.  In the code disconn_handler never touches
virtual_groups, so an admitted handler stays in its group after
disconnecting, and a second invocation raises KeyError from the
unguarded self.handlers.pop(conn). -/
theorem C3_residual_group_and_keyerror :
    runEvents cbOk initState admitTrace = .ok (sAdmitted, []) ∧
    disconn_handler sAdmitted 1 = .ok sAfterDisc ∧
    sAfterDisc.virtual_groups = [([7, 7, 7], [⟨1, none, some [7, 7, 7]⟩])] ∧
    disconn_handler sAfterDisc 1 = .error .keyError :=
  ⟨rfl, rfl, rfl, rfl⟩

/-- Claim C4: a Handler is claimed to be in a VirtualGroup iff admitted
and not disconnected, so dispatch never selects a disconnected Handler.
In the code, after connection 1 is admitted with filter [7,7,7] and then
disconnects, it remains the sole member of its group, and send_update
for a request that filter accepts selects exactly this disconnected
handler. -/
theorem C4_dispatch_to_disconnected :
    runEvents cbOk initState (admitTrace ++ [Event.disconnect 1]) = .ok (sAfterDisc, []) ∧
    dlookup sAfterDisc.handlers 1 = none ∧
    sAfterDisc.virtual_groups = [([7, 7, 7], [⟨1, none, some [7, 7, 7]⟩])] ∧
    send_update (fun _ (_ : Nat) => true) sAfterDisc 0 = .ok [1] :=
  ⟨rfl, rfl, rfl, rfl⟩

/-- Comparison with None on the right always raises in ltLoad. -/
theorem ltLoad_none_right (x : Option Nat) : ltLoad x none = .error .typeError := by
  cases x <;> rfl

/-- The CPython min scan over handlers with set loads returns a handler
whose load is lower or equal to the running best and to every scanned
element. -/
theorem pyMinGo_ok (l : List Handler) : ∀ best : Handler, best.load.isSome = true →
    (∀ h ∈ l, h.load.isSome = true) →
    ∃ m, pyMinGo best l = .ok m ∧ (m = best ∨ m ∈ l) ∧ lv m ≤ lv best ∧
      ∀ h ∈ l, lv m ≤ lv h := by
  induction l with
  | nil =>
    intro best _ _
    exact ⟨best, rfl, Or.inl rfl, le_refl _, by simp⟩
  | cons h t ih =>
    intro best hbest hall
    obtain ⟨b, hb⟩ := Option.isSome_iff_exists.mp hbest
    obtain ⟨a, ha⟩ := Option.isSome_iff_exists.mp (hall h (by simp))
    have hstep : pyMinGo best (h :: t) = pyMinGo (if a < b then h else best) t := by
      simp [pyMinGo, ltLoad, ha, hb]
    have hbest' : (if a < b then h else best).load.isSome = true := by
      by_cases hc : a < b <;> simp [hc, ha, hb]
    obtain ⟨m, hm, hmem, hle, hrest⟩ :=
      ih (if a < b then h else best) hbest' (fun x hx => hall x (by simp [hx]))
    refine ⟨m, by rw [hstep]; exact hm, ?_, ?_, ?_⟩
    · by_cases hc : a < b
      · rw [if_pos hc] at hmem
        rcases hmem with hm1 | hm2
        · exact Or.inr (by simp [hm1])
        · exact Or.inr (by simp [hm2])
      · rw [if_neg hc] at hmem
        rcases hmem with hm1 | hm2
        · exact Or.inl hm1
        · exact Or.inr (by simp [hm2])
    · by_cases hc : a < b
      · rw [if_pos hc] at hle
        calc lv m ≤ lv h := hle
          _ ≤ lv best := by simp [lv, ha, hb]; exact le_of_lt hc
      · rw [if_neg hc] at hle
        exact hle
    · intro x hx
      rcases List.mem_cons.mp hx with hx1 | hx2
      · subst hx1
        by_cases hc : a < b
        · rw [if_pos hc] at hle; exact hle
        · rw [if_neg hc] at hle
          calc lv m ≤ lv best := hle
            _ ≤ lv x := by simp [lv, ha, hb]; exact le_of_not_lt hc
      · exact hrest x hx2

/-- Python min(handlers, key=load) on a nonempty list of handlers whose
loads are all set succeeds and returns a least-loaded member. -/
theorem pyMin_ok (hs : List Handler) (hne : hs ≠ [])
    (hall : ∀ h ∈ hs, h.load.isSome = true) :
    ∃ m, pyMin hs = .ok m ∧ m ∈ hs ∧ ∀ h ∈ hs, lv m ≤ lv h := by
  match hs, hne with
  | h :: t, _ =>
    obtain ⟨m, hm, hmem, hle, hrest⟩ :=
      pyMinGo_ok t h (hall h (by simp)) (fun x hx => hall x (by simp [hx]))
    refine ⟨m, hm, ?_, ?_⟩
    · rcases hmem with hm1 | hm2
      · simp [hm1]
      · simp [hm2]
    · intro x hx
      rcases List.mem_cons.mp hx with hx1 | hx2
      · subst hx1; exact hle
      · exact hrest x hx2

/-- The CPython min scan raises TypeError as soon as a comparison
touches an unset load. -/
theorem pyMinGo_unset (l : List Handler) : ∀ best : Handler, l ≠ [] →
    (best.load = none ∨ ∃ h ∈ l, h.load = none) →
    pyMinGo best l = .error .typeError := by
  induction l with
  | nil => intro best hne _; exact absurd rfl hne
  | cons h t ih =>
    intro best _ hcase
    rcases hcase with hb | ⟨x, hx, hxn⟩
    · simp [pyMinGo, hb, ltLoad_none_right]
    · rcases List.mem_cons.mp hx with hx1 | hx2
      · subst hx1
        cases hbl : best.load with
        | none => simp [pyMinGo, hbl, ltLoad_none_right]
        | some b => simp [pyMinGo, hxn, hbl, ltLoad]
      · cases hhl : h.load with
        | none => simp [pyMinGo, hhl, ltLoad]
        | some a =>
          cases hbl : best.load with
          | none => simp [pyMinGo, hbl, ltLoad_none_right]
          | some b =>
            have htne : t ≠ [] := by
              intro h0
              rw [h0] at hx2
              exact absurd hx2 (List.not_mem_nil x)
            have := ih (if a < b then h else best) htne (Or.inr ⟨x, hx2, hxn⟩)
            simp [pyMinGo, hhl, hbl, ltLoad, this]

/-- Python min over a group of two or more handlers, at least one of
which has an unset load, raises TypeError. -/
theorem pyMin_unset (hs : List Handler) (hlen : 2 ≤ hs.length)
    (hnone : ∃ h ∈ hs, h.load = none) : pyMin hs = .error .typeError := by
  match hs, hlen with
  | h :: t, hlen =>
    have htne : t ≠ [] := by
      intro h0
      rw [h0] at hlen
      simp at hlen
    obtain ⟨x, hx, hxn⟩ := hnone
    rcases List.mem_cons.mp hx with hx1 | hx2
    · subst hx1
      exact pyMinGo_unset t x htne (Or.inl hxn)
    · exact pyMinGo_unset t h htne (Or.inr ⟨x, hx2, hxn⟩)

/-- One dispatch target is correct for its group: it is a member of the
group and its load is minimal there. -/
def minSendRel (g : Bytes × List Handler) (hid : Nat) : Prop :=
  ∃ m ∈ g.2, m.hid = hid ∧ ∀ h ∈ g.2, lv m ≤ lv h

/-- The send_update loop, over any list of groups whose accepted members
all have set loads, sends exactly once per accepted group, each time to
a least-loaded member. -/
theorem send_updateGo_ok {α : Type} (accepts : Bytes → α → Bool) (req : α) :
    ∀ gs : List (Bytes × List Handler),
    (∀ g ∈ gs, accepts g.1 req = true → g.2 ≠ [] ∧ ∀ h ∈ g.2, h.load.isSome = true) →
    ∃ sends, send_updateGo accepts req gs = .ok sends ∧
      List.Forall₂ minSendRel (gs.filter fun g => accepts g.1 req) sends := by
  intro gs
  induction gs with
  | nil => intro _; exact ⟨[], rfl, by simp⟩
  | cons g rest ih =>
    intro hyp
    obtain ⟨f, hs⟩ := g
    obtain ⟨tail, htail, hf2⟩ := ih (fun x hx hacc => hyp x (by simp [hx]) hacc)
    by_cases hacc : accepts f req = true
    · obtain ⟨hne, hall⟩ := hyp (f, hs) (by simp) hacc
      obtain ⟨m, hm, hmem, hmin⟩ := pyMin_ok hs hne hall
      refine ⟨m.hid :: tail, ?_, ?_⟩
      · simp [send_updateGo, hacc, hm, htail]
      · rw [List.filter_cons_of_pos (by simpa using hacc)]
        exact List.Forall₂.cons ⟨m, hmem, rfl, hmin⟩ hf2
    · refine ⟨tail, ?_, ?_⟩
      · simp [send_updateGo, hacc, htail]
      · rw [List.filter_cons_of_neg (by simpa using hacc)]
        exact hf2

/-- Claim C5: for every dispatched request whose accepted groups are
nonempty and have all loads set, send_update raises no error and sends
exactly once per accepted group, each send directed to a least-loaded
member of that group; when no group accepts, no send occurs (and
send_update reads but never writes the server state). -/
theorem C5_least_loaded_dispatch {α : Type} (accepts : Bytes → α → Bool)
    (s : ServerState) (req : α)
    (hyp : ∀ g ∈ s.virtual_groups, accepts g.1 req = true →
      g.2 ≠ [] ∧ ∀ h ∈ g.2, h.load.isSome = true) :
    ∃ sends, send_update accepts s req = .ok sends ∧
      List.Forall₂ minSendRel (s.virtual_groups.filter fun g => accepts g.1 req) sends ∧
      ((s.virtual_groups.filter fun g => accepts g.1 req) = [] → sends = []) := by
  obtain ⟨sends, h1, h2⟩ := send_updateGo_ok accepts req s.virtual_groups hyp
  refine ⟨sends, h1, h2, fun hnil => ?_⟩
  rw [hnil] at h2
  cases h2
  rfl

/-- Group of three handlers with loads 80, 12 and 200 (the spec's
dispatch example). -/
def s5 : ServerState :=
  ⟨[], [], [], [],
   [([0], [⟨1, some 80, some [0]⟩, ⟨2, some 12, some [0]⟩, ⟨3, some 200, some [0]⟩])], []⟩

theorem C5_least_loaded_dispatch_witness :
    (∀ g ∈ s5.virtual_groups, (fun (_ : Bytes) (_ : Nat) => true) g.1 0 = true →
      g.2 ≠ [] ∧ ∀ h ∈ g.2, h.load.isSome = true) ∧
    (∃ sends, send_update (fun (_ : Bytes) (_ : Nat) => true) s5 0 = .ok sends ∧
      List.Forall₂ minSendRel
        (s5.virtual_groups.filter fun g => (fun (_ : Bytes) (_ : Nat) => true) g.1 0) sends ∧
      ((s5.virtual_groups.filter fun g => (fun (_ : Bytes) (_ : Nat) => true) g.1 0) = [] →
        sends = [])) ∧
    send_update (fun (_ : Bytes) (_ : Nat) => true) s5 0 = .ok [2] :=
  ⟨by decide, C5_least_loaded_dispatch (fun _ _ => true) s5 0 (by decide), rfl⟩

/-- Two-handler group in which handler 1 has never heartbeated (load
unset) while handler 2 reported load 12. -/
def s9 : ServerState :=
  ⟨[], [], [], [], [([0], [⟨1, none, some [0]⟩, ⟨2, some 12, some [0]⟩])], []⟩

/-- Claim C9 counterexample: dispatch over a group containing a handler
with unset load does not complete; comparing the unset load raises
TypeError, so the unset load is treated as no extreme value at all. -/
theorem C9_counterexample :
    send_update (fun (_ : Bytes) (_ : Nat) => true) s9 0 = .error .typeError := rfl

/-- Claim C9 as amended: when the matching group holds two or more
handlers and at least one load is unset, send_update raises TypeError
(the unset load is not comparable, hence not treated as maximal or
minimal); only when no comparison happens, as in a singleton group, does
dispatch complete, returning the sole member. -/
theorem C9_amended :
    (∀ (α : Type) (accepts : Bytes → α → Bool) (s : ServerState) (req : α)
      (f : Bytes) (hs : List Handler),
      s.virtual_groups = [(f, hs)] → accepts f req = true → 2 ≤ hs.length →
      (∃ h ∈ hs, h.load = none) → send_update accepts s req = .error .typeError) ∧
    (∀ (α : Type) (accepts : Bytes → α → Bool) (s : ServerState) (req : α)
      (f : Bytes) (h : Handler),
      s.virtual_groups = [(f, [h])] → accepts f req = true →
      send_update accepts s req = .ok [h.hid]) := by
  constructor
  · intro α accepts s req f hs hvg hacc hlen hnone
    rw [send_update, hvg]
    simp [send_updateGo, hacc, pyMin_unset hs hlen hnone]
  · intro α accepts s req f h hvg hacc
    rw [send_update, hvg]
    simp [send_updateGo, hacc, pyMin, pyMinGo]

theorem C9_amended_witness :
    send_update (fun (_ : Bytes) (_ : Nat) => true) s9 0 = .error .typeError ∧
    send_update (fun (_ : Bytes) (_ : Nat) => true) sAfterDisc 0 = .ok [1] :=
  ⟨C9_amended.1 Nat (fun _ _ => true) s9 0 [0]
      [⟨1, none, some [0]⟩, ⟨2, some 12, some [0]⟩] rfl rfl (by decide)
      ⟨⟨1, none, some [0]⟩, by decide, rfl⟩,
   C9_amended.2 Nat (fun _ _ => true) sAfterDisc 0 [7, 7, 7] ⟨1, none, some [7, 7, 7]⟩ rfl rfl⟩

/-- Claim C8: an exception raised by the response callback is claimed to
be caught inside the event-handling code.  core.py wraps the callback in
no try/except: with a callback that raises, completing the application
frame [9, 104] on the admitted connection makes the exception propagate
out of response() and requests_handler, aborting event processing. -/
theorem C8_callback_error_propagates :
    runEvents cbBoom initState
      (admitTrace ++ [Event.receive 1 [2, 0, 0, 0], Event.receive 1 [9, 104]]) =
      .error .valueError := rfl

/-- Updating the value under a key is seen by a lookup of that key. -/
theorem dlookup_dupdate_self {β : Type} (d : List (Nat × β)) (k : Nat) (f : β → β) :
    dlookup (dupdate d k f) k = (dlookup d k).map f := by
  induction d with
  | nil => rfl
  | cons p rest ih =>
    obtain ⟨k', v⟩ := p
    by_cases h : k' = k <;> simp [dupdate, dlookup, h, ih]

/-- Updating the value under a key leaves lookups of other keys
unchanged. -/
theorem dlookup_dupdate_ne {β : Type} (d : List (Nat × β)) (k c : Nat) (f : β → β)
    (hne : c ≠ k) : dlookup (dupdate d k f) c = dlookup d c := by
  induction d with
  | nil => rfl
  | cons p rest ih =>
    obtain ⟨k', v⟩ := p
    by_cases h : k' = k
    · subst h
      have hkc : k' ≠ c := fun h0 => hne h0.symm
      simp [dupdate, dlookup, hkc]
    · simp [dupdate, dlookup, h, ih]

/-- Claim C6: a completed frame [1, v] on an admitted connection is a
heartbeat: the Handler load of exactly that connection is overwritten
with v, the response callback is not invoked (the returned call list is
empty), and the load stored for any other connection c is unchanged. -/
theorem C6_heartbeat_sets_load (cb : Nat → Bytes → Except PyError Unit)
    (s : ServerState) (conn v c : Nat) (ent : Handler) (_hv : v < 256)
    (hadm : dlookup s.waiting_for_init conn = none)
    (hent : dlookup s.handlers conn = some ent)
    (hc : c ≠ conn) :
    response cb s conn [1, v] = .ok (set_load s conn v, []) ∧
    dlookup (set_load s conn v).handlers conn = some { ent with load := some v } ∧
    dlookup (set_load s conn v).handlers c = dlookup s.handlers c := by
  refine ⟨?_, ?_, ?_⟩
  · simp [response, hadm, hent]
  · simp [set_load, dlookup_dupdate_self, hent]
  · simp [set_load, dlookup_dupdate_ne _ _ _ _ hc]

theorem C6_heartbeat_sets_load_witness :
    response cbOk sAdmitted 1 [1, 57] = .ok (set_load sAdmitted 1 57, []) ∧
    dlookup (set_load sAdmitted 1 57).handlers 1 = some ⟨1, some 57, some [7, 7, 7]⟩ ∧
    dlookup (set_load sAdmitted 1 57).handlers 2 = dlookup sAdmitted.handlers 2 :=
  C6_heartbeat_sets_load cbOk sAdmitted 1 57 2 ⟨1, none, some [7, 7, 7]⟩
    (by decide) rfl rfl (by decide)

/-- Claim C7: a completed frame whose tag differs from 1 on an admitted
connection produces exactly one response-callback invocation, carrying
the originating Handler's identity and the payload from index 1 onward,
and leaves the server state (in particular every load) unchanged. -/
theorem C7_app_frame_callback (cb : Nat → Bytes → Except PyError Unit)
    (s : ServerState) (conn : Nat) (ent : Handler) (tag : Nat) (rest : Bytes)
    (hadm : dlookup s.waiting_for_init conn = none)
    (hent : dlookup s.handlers conn = some ent)
    (htag : tag ≠ 1)
    (hcb : cb ent.hid rest = .ok ()) :
    response cb s conn (tag :: rest) = .ok (s, [(ent.hid, rest)]) := by
  simp [response, hadm, hent, htag, hcb]

theorem C7_app_frame_callback_witness :
    response cbOk sAdmitted 1 (9 :: [104, 101, 108, 108, 111]) =
      .ok (sAdmitted, [(1, [104, 101, 108, 108, 111])]) :=
  C7_app_frame_callback cbOk sAdmitted 1 ⟨1, none, some [7, 7, 7]⟩ 9
    [104, 101, 108, 108, 111] rfl rfl (by decide) rfl

/-- Claim C10: classification on an admitted connection is partial in
the frame length: the empty payload raises IndexError at index 0, the
one-byte heartbeat payload [1] raises IndexError at index 1, and under
the unstated precondition (length at least 1, and at least 2 for tag 1)
classification completes as a heartbeat or as a callback invocation. -/
theorem C10_classification_partiality (cb : Nat → Bytes → Except PyError Unit)
    (s : ServerState) (conn : Nat) (ent : Handler) (v tag : Nat) (rest : Bytes)
    (hadm : dlookup s.waiting_for_init conn = none)
    (hent : dlookup s.handlers conn = some ent)
    (htag : tag ≠ 1)
    (hcb : cb ent.hid rest = .ok ()) :
    response cb s conn [] = .error .indexError ∧
    response cb s conn [1] = .error .indexError ∧
    response cb s conn (1 :: v :: rest) = .ok (set_load s conn v, []) ∧
    response cb s conn (tag :: rest) = .ok (s, [(ent.hid, rest)]) := by
  refine ⟨?_, ?_, ?_, ?_⟩ <;> simp [response, hadm, hent, htag, hcb]

theorem C10_classification_partiality_witness :
    response cbOk sAdmitted 1 [] = .error .indexError ∧
    response cbOk sAdmitted 1 [1] = .error .indexError ∧
    response cbOk sAdmitted 1 (1 :: 57 :: [0]) = .ok (set_load sAdmitted 1 57, []) ∧
    response cbOk sAdmitted 1 (9 :: [0]) = .ok (sAdmitted, [(1, [0])]) :=
  C10_classification_partiality cbOk sAdmitted 1 ⟨1, none, some [7, 7, 7]⟩ 57 9 [0]
    rfl rfl (by decide) rfl

end Rush
